import Mathlib

/-!
Shallow embedding of the identity-mapping service in `src/daemon/idmap.c`
(NFSv4.1 client daemon): configuration model, generic TTL cache, directory
backend query logic, the alternate (cygwin) local-account backend, and the
public mapper facade.
-/

set_option autoImplicit false

namespace Idmap

/-! ## C character classification (default locale) -/

/-- C `isspace`: space, tab, newline, vertical tab, form feed, carriage return. -/
def c_isspace (c : Char) : Bool :=
  c = ' ' || c = '\t' || c = '\n' || c = '\x0b' || c = '\x0c' || c = '\r'

/-- C `isdigit`. -/
def c_isdigit (c : Char) : Bool :=
  '0' ≤ c && c ≤ '9'

/-- Strip trailing characters satisfying `p` (the `while (len && isspace(s[len-1])) len--` idiom). -/
def dropTrailing (p : Char → Bool) (l : List Char) : List Char :=
  (l.reverse.dropWhile p).reverse

/-! ## Integer parsing: `parse_uint` (idmap.c lines 226-243)

`parse_uint` calls C `strtoul(str, &endp, 10)` and accepts the result when the
conversion consumed the whole string and no 32-bit overflow occurred.
`strtoul10` models the C library conversion: skip whitespace, optional single
sign, decimal digits; a minus sign negates the value modulo 2^32; a value
whose magnitude exceeds `ULONG_MAX` yields `ULONG_MAX` with `errno = ERANGE`.
On Windows `unsigned long` is 32 bits. -/

def ULONG_MAX : Nat := 2 ^ 32 - 1

/-- Numeric value of a decimal digit string. -/
def digitsVal (l : List Char) : Nat :=
  l.foldl (fun a c => a * 10 + (c.toNat - '0'.toNat)) 0

structure strtoul_out where
  value : Nat
  /-- number of characters consumed (`endp - str`); 0 when no conversion was performed -/
  endIdx : Nat
  /-- whether this conversion set `errno` to `ERANGE` -/
  erange : Bool
deriving Repr, DecidableEq

/-- Model of `strtoul(str, &endp, 10)`. -/
def strtoul10 (s : List Char) : strtoul_out :=
  let wsn := (s.takeWhile c_isspace).length
  let s1 := s.dropWhile c_isspace
  let sgn : Bool := s1.head? = some '-'
  let sgnLen : Nat := if s1.head? = some '-' || s1.head? = some '+' then 1 else 0
  let s2 := s1.drop sgnLen
  let ds := s2.takeWhile c_isdigit
  if ds.isEmpty then ⟨0, 0, false⟩
  else
    let v := digitsVal ds
    if ULONG_MAX < v then ⟨ULONG_MAX, wsn + sgnLen + ds.length, true⟩
    else ⟨if sgn then (2 ^ 32 - v) % 2 ^ 32 else v, wsn + sgnLen + ds.length, false⟩

/-- `parse_uint` from idmap.c: the whole string must convert and the result
must fit in 32 bits (`errno` is modelled as clean on entry, so the `ERANGE`
test observes only this conversion). Returns `none` for `FALSE`. -/
def parse_uint (s : List Char) : Option Nat :=
  let r := strtoul10 s
  if r.endIdx < s.length then none
  else if r.value = ULONG_MAX && r.erange then none
  else some r.value

/-- The spec's words for C4: the value is accepted as an unsigned decimal
integer exactly when the entire string is (nonempty) decimal digits and the
numeric result fits in 32 bits. Used to compare the claim against the code. -/
def spec_uint_accepts (s : List Char) : Option Nat :=
  if s ≠ [] ∧ s.all c_isdigit ∧ digitsVal s < 2 ^ 32 then some (digitsVal s) else none

/-! ## Error domain

Generic status codes used by the daemon (Win32 / mapped LDAP errors). -/

inductive Status where
  | ok
  | errNotFound
  | errInvalidParameter
  | errBufferOverflow
  | errFileNotFound
  | errNoSuchAttribute
  | errNoResults
  | errAlloc
deriving Repr, DecidableEq

instance instDecEqExcept {ε α : Type} [DecidableEq ε] [DecidableEq α] :
    DecidableEq (Except ε α) := fun x y =>
  match x, y with
  | .error a, .error b =>
    if h : a = b then .isTrue (by rw [h]) else .isFalse (fun hh => h (by injection hh))
  | .error _, .ok _ => .isFalse (fun hh => Except.noConfusion hh)
  | .ok _, .error _ => .isFalse (fun hh => Except.noConfusion hh)
  | .ok a, .ok b =>
    if h : a = b then .isTrue (by rw [h]) else .isFalse (fun hh => h (by injection hh))

/-- `String.takeWhile`, computed on the underlying character list. -/
def str_takeWhile (p : Char → Bool) (s : String) : String :=
  ⟨s.data.takeWhile p⟩

/-- `String.take`, computed on the underlying character list. -/
def str_take (s : String) (n : Nat) : String :=
  ⟨s.data.take n⟩

/-! ## Configuration model (idmap.c lines 82-385) -/

/-- Buffer sizes from idmap.c. -/
def NAME_LEN : Nat := 32
def VAL_LEN : Nat := 257
def NFS41_HOSTNAME_LEN : Nat := 64
def FILTER_LEN : Nat := 1024

inductive ldap_class where
  | CLASS_USER
  | CLASS_GROUP
deriving Repr, DecidableEq

inductive ldap_attr where
  | ATTR_USER_NAME
  | ATTR_GROUP_NAME
  | ATTR_PRINCIPAL
  | ATTR_UID
  | ATTR_GID
deriving Repr, DecidableEq

/-- Bit index of an attribute (its position in `enum ldap_attr`). -/
def attr_idx : ldap_attr → Nat
  | .ATTR_USER_NAME => 0
  | .ATTR_GROUP_NAME => 1
  | .ATTR_PRINCIPAL => 2
  | .ATTR_UID => 3
  | .ATTR_GID => 4

/-- `ATTR_FLAG(attr) = 1 << attr`. -/
def ATTR_FLAG (a : ldap_attr) : Nat := 2 ^ attr_idx a

/-- The loop order `for (i = 0; i < NUM_ATTRIBUTES; i++)`. -/
def all_attrs : List ldap_attr :=
  [.ATTR_USER_NAME, .ATTR_GROUP_NAME, .ATTR_PRINCIPAL, .ATTR_UID, .ATTR_GID]

/-- `struct idmap_config`. String fields are bounded buffers in C; the bounds
are enforced at every write, so the model stores plain strings. The
`cache_ttl` field is a signed `INT` assigned from an unsigned parse. -/
structure idmap_config where
  hostname : String
  localdomain_name : String
  port : Nat
  version : Nat
  timeout : Nat
  class_user : String
  class_group : String
  attr_user_name : String
  attr_group_name : String
  attr_principal : String
  attr_uid : String
  attr_gid : String
  base : String
  cache_ttl : Int
deriving Repr, DecidableEq

/-- `config->classes[klass]`. -/
def config_class (c : idmap_config) : ldap_class → String
  | .CLASS_USER => c.class_user
  | .CLASS_GROUP => c.class_group

/-- `config->attributes[attr]`. -/
def config_attr (c : idmap_config) : ldap_attr → String
  | .ATTR_USER_NAME => c.attr_user_name
  | .ATTR_GROUP_NAME => c.attr_group_name
  | .ATTR_PRINCIPAL => c.attr_principal
  | .ATTR_UID => c.attr_uid
  | .ATTR_GID => c.attr_gid

/-- The zeroed struct produced by `calloc` in `nfs41_idmap_create`. -/
def zero_config : idmap_config :=
  ⟨"", "", 0, 0, 0, "", "", "", "", "", "", "", "", 0⟩

/-- Reinterpret a 32-bit unsigned value as a signed `INT`
(the store of `parse_uint`'s result into the `INT cache_ttl` field). -/
def int32_of_uint32 (v : Nat) : Int :=
  if v < 2 ^ 31 then (v : Int) else (v : Int) - 2 ^ 32

inductive config_type where
  | TYPE_STR
  | TYPE_INT
deriving Repr, DecidableEq

/-- One row of `g_options[]`: key, default value, type, max length, and the
target field (the C table stores a field offset; the model stores setters). -/
structure config_option where
  key : String
  defval : String
  ctype : config_type
  max_len : Nat
  set_str : idmap_config → String → idmap_config
  set_int : idmap_config → Nat → idmap_config

def keep_str : idmap_config → String → idmap_config := fun c _ => c
def keep_int : idmap_config → Nat → idmap_config := fun c _ => c

/-- The `g_options[]` table with its documented keys and default values. -/
def g_options : List config_option :=
  [ ⟨"ldap_hostname", "localhost", .TYPE_STR, NFS41_HOSTNAME_LEN + 1,
      fun c v => { c with hostname := v }, keep_int⟩,
    ⟨"ldap_port", "389", .TYPE_INT, 0, keep_str, fun c v => { c with port := v }⟩,
    ⟨"ldap_version", "3", .TYPE_INT, 0, keep_str, fun c v => { c with version := v }⟩,
    ⟨"ldap_timeout", "0", .TYPE_INT, 0, keep_str, fun c v => { c with timeout := v }⟩,
    ⟨"ldap_base", "cn=localhost", .TYPE_STR, VAL_LEN,
      fun c v => { c with base := v }, keep_int⟩,
    ⟨"ldap_class_users", "user", .TYPE_STR, NAME_LEN,
      fun c v => { c with class_user := v }, keep_int⟩,
    ⟨"ldap_class_groups", "group", .TYPE_STR, NAME_LEN,
      fun c v => { c with class_group := v }, keep_int⟩,
    ⟨"ldap_attr_username", "cn", .TYPE_STR, NAME_LEN,
      fun c v => { c with attr_user_name := v }, keep_int⟩,
    ⟨"ldap_attr_groupname", "cn", .TYPE_STR, NAME_LEN,
      fun c v => { c with attr_group_name := v }, keep_int⟩,
    ⟨"ldap_attr_gssAuthName", "gssAuthName", .TYPE_STR, NAME_LEN,
      fun c v => { c with attr_principal := v }, keep_int⟩,
    ⟨"ldap_attr_uidNumber", "uidNumber", .TYPE_STR, NAME_LEN,
      fun c v => { c with attr_uid := v }, keep_int⟩,
    ⟨"ldap_attr_gidNumber", "gidNumber", .TYPE_STR, NAME_LEN,
      fun c v => { c with attr_gid := v }, keep_int⟩,
    ⟨"cache_ttl", "6000", .TYPE_INT, 0, keep_str,
      fun c v => { c with cache_ttl := int32_of_uint32 v }⟩ ]

/-! ### Line parsing: `config_parse_pair` (idmap.c lines 156-224) -/

/-- Parse one line into a key/value pair, or fail (`ERROR_INVALID_PARAMETER`):
terminate the line at `#`; skip whitespace before the key; require an `=`;
trim whitespace off the key end and require a nonempty key; skip whitespace
after `=` and require a nonempty remainder; a value opening with `"` runs to
the next `"` verbatim (missing closing quote fails); otherwise the value is
the rest of the line with trailing whitespace trimmed. -/
def config_parse_pair (line : List Char) : Option (List Char × List Char) :=
  let l := line.takeWhile (· ≠ '#')
  let l1 := l.dropWhile c_isspace
  if l1.any (· = '=') then
    let key := dropTrailing c_isspace (l1.takeWhile (· ≠ '='))
    if key.isEmpty then none
    else
      let rest := (l1.dropWhile (· ≠ '=')).tail
      let v1 := rest.dropWhile c_isspace
      match v1 with
      | [] => none
      | '\"' :: body =>
        if body.any (· = '\"') then some (key, body.takeWhile (· ≠ '\"')) else none
      | _ :: _ => some (key, dropTrailing c_isspace v1)
  else none

/-- `config_find_option`: case-insensitive key search in `g_options[]`
(`_stricmp`). -/
def config_find_option (key : List Char) : Option config_option :=
  g_options.find? (fun o => (String.mk key).toLower = o.key.toLower)

/-- Apply one parsed value to its option's field: integer options go through
`parse_uint`; string options are copied with `StringCchCopyNA(dst, max_len,
value, value_len)`, which fails when the value does not fit (terminator
included). -/
def option_apply (o : config_option) (value : List Char) (c : idmap_config) :
    Except Status idmap_config :=
  match o.ctype with
  | .TYPE_INT =>
    match parse_uint value with
    | none => .error .errInvalidParameter
    | some v => .ok (o.set_int c v)
  | .TYPE_STR =>
    if o.max_len ≤ value.length then .error .errBufferOverflow
    else .ok (o.set_str c (String.mk value))

/-- One default-table entry applied in `config_defaults` (same checks, with
`StringCchCopyA(dst, max_len, def)`). -/
def option_apply_default (o : config_option) (c : idmap_config) :
    Except Status idmap_config :=
  match o.ctype with
  | .TYPE_INT =>
    match parse_uint o.defval.toList with
    | none => .error .errInvalidParameter
    | some v => .ok (o.set_int c v)
  | .TYPE_STR =>
    if o.max_len ≤ o.defval.length then .error .errBufferOverflow
    else .ok (o.set_str c o.defval)

/-- `config_defaults`: parse every default into its field, stopping at the
first failure (a programming-time invariant violation). -/
def config_defaults_go : List config_option → idmap_config → Status × idmap_config
  | [], c => (.ok, c)
  | o :: rest, c =>
    match option_apply_default o c with
    | .error s => (s, c)
    | .ok c' => config_defaults_go rest c'

def config_defaults (c : idmap_config) : Status × idmap_config :=
  config_defaults_go g_options c

/-- The per-line step of the `config_load` read loop (idmap.c lines 315-358):
skip blank and comment lines; otherwise parse the pair, find its option
(unknown keys are `ERROR_INVALID_PARAMETER`), and apply the value. The loop
stops at the first error, keeping the fields already assigned. -/
def config_load_lines : List (List Char) → idmap_config → Status × idmap_config
  | [], c => (.ok, c)
  | ln :: rest, c =>
    let p := ln.dropWhile c_isspace
    if p.head? = some '#' || p.isEmpty then config_load_lines rest c
    else
      match config_parse_pair ln with
      | none => (.errInvalidParameter, c)
      | some (k, v) =>
        match config_find_option k with
        | none => (.errInvalidParameter, c)
        | some o =>
          match option_apply o v c with
          | .error s => (s, c)
          | .ok c' => config_load_lines rest c'

/-- `config_load`: a file that cannot be opened (`contents = none`) leaves the
config untouched and returns `NO_ERROR`; otherwise process the lines. -/
def config_load (contents : Option (List (List Char))) (c : idmap_config) :
    Status × idmap_config :=
  match contents with
  | none => (.ok, c)
  | some lines => config_load_lines lines c

/-- `config_init`: defaults, then the config file. -/
def config_init (contents : Option (List (List Char))) : Status × idmap_config :=
  match config_defaults zero_config with
  | (.ok, c) => config_load contents c
  | (s, c) => (s, c)

/-! ## Generic TTL cache (idmap.c lines 388-546)

One list per entity kind; `cache_lookup` returns a copy of the first entry
matched by the comparator; `cache_insert` overwrites the first match in place
or prepends a freshly allocated entry (allocation may fail). Entries are
never removed. The C code erases the entry type behind `struct list_entry`;
the model instantiates the same algorithms at each entry type. -/

/-- `cache_lookup`: linear scan with the lookup's comparator. -/
def cache_find {α : Type} (m : α → Bool) (cache : List α) : Option α :=
  cache.find? m

/-- The overwrite arm of `cache_insert`: copy `src`'s fields onto the first
entry matched by the comparator, keeping its list position. -/
def cache_overwrite {α : Type} (m : α → Bool) (src : α) : List α → List α
  | [] => []
  | e :: rest => if m e then src :: rest else e :: cache_overwrite m src rest

/-- `cache_insert`: overwrite an existing match, else allocate and prepend;
a failed allocation returns an error and leaves the list unchanged. -/
def cache_insert {α : Type} (alloc_ok : Bool) (m : α → Bool) (src : α)
    (cache : List α) : Status × List α :=
  if cache.any m then (.ok, cache_overwrite m src cache)
  else if alloc_ok then (.ok, src :: cache)
  else (.errAlloc, cache)

/-- `struct idmap_user` cache entries. -/
structure idmap_user where
  username : String
  principal : String
  uid : Nat
  gid : Nat
  last_updated : Nat
deriving Repr, DecidableEq

/-- `struct idmap_group` cache entries. -/
structure idmap_group where
  name : String
  gid : Nat
  last_updated : Nat
deriving Repr, DecidableEq

/-- The three comparators usable against the user cache
(`username_cmp`, `uid_cmp`, `principal_cmp`), keyed by lookup value. -/
inductive user_key where
  | byName (n : String)
  | byUid (u : Nat)
  | byPrincipal (p : String)
deriving Repr, DecidableEq

/-- The two comparators usable against the group cache
(`group_cmp`, `gid_cmp`). -/
inductive group_key where
  | byGroupName (n : String)
  | byGid (g : Nat)
deriving Repr, DecidableEq

def user_key_matches : user_key → idmap_user → Bool
  | .byName n, e => e.username == n
  | .byUid u, e => e.uid == u
  | .byPrincipal p, e => e.principal == p

def group_key_matches : group_key → idmap_group → Bool
  | .byGroupName n, e => e.name == n
  | .byGid g, e => e.gid == g

/-! ## Backend attribute records

What a successful backend query yields for each entity kind, after
attribute parsing and before the cache timestamp is stamped. -/

structure user_attrs where
  username : String
  principal : String
  uid : Nat
  gid : Nat
deriving Repr, DecidableEq

structure group_attrs where
  name : String
  gid : Nat
deriving Repr, DecidableEq

/-- Fill a cache entry from backend results and stamp
`last_updated = UTIL_GETRELTIME()`. -/
def stamp_user (a : user_attrs) (now : Nat) : idmap_user :=
  ⟨a.username, a.principal, a.uid, a.gid, now⟩

def stamp_group (a : group_attrs) (now : Nat) : idmap_group :=
  ⟨a.name, a.gid, now⟩

/-! ## Lookup engines (idmap.c `idmap_lookup_user`, `idmap_lookup_group`)

Both builds (LDAP and cygwin) share the cache-check / backend-query /
cache-refresh skeleton; the backend middle section is a parameter `B`.
The result records the status, the value written to the out-parameter,
the user list after the call, and how many backend queries were issued. -/

structure user_result where
  status : Status
  value : Option idmap_user
  users : List idmap_user
  queries : Nat

structure group_result where
  status : Status
  value : Option idmap_group
  groups : List idmap_group
  queries : Nat

/-- `idmap_lookup_user`: a cache hit younger than `cache_ttl` is returned
directly; otherwise one backend query runs, and on success the entry is
inserted/refreshed when `cache_ttl != 0` (the insert status is discarded). -/
def idmap_lookup_user (B : user_key → Except Status user_attrs) (ttl : Int)
    (alloc_ok : Bool) (now : Nat) (cache : List idmap_user) (k : user_key) :
    user_result :=
  let backend : user_result :=
    match B k with
    | .error s => ⟨s, none, cache, 1⟩
    | .ok a =>
      let u := stamp_user a now
      if ttl ≠ 0 then ⟨.ok, some u, (cache_insert alloc_ok (user_key_matches k) u cache).2, 1⟩
      else ⟨.ok, some u, cache, 1⟩
  match cache_find (user_key_matches k) cache with
  | some e =>
    if (now : Int) - (e.last_updated : Int) < ttl then ⟨.ok, some e, cache, 0⟩
    else backend
  | none => backend

/-- `idmap_lookup_group`, same shape as `idmap_lookup_user`. -/
def idmap_lookup_group (B : group_key → Except Status group_attrs) (ttl : Int)
    (alloc_ok : Bool) (now : Nat) (cache : List idmap_group) (k : group_key) :
    group_result :=
  let backend : group_result :=
    match B k with
    | .error s => ⟨s, none, cache, 1⟩
    | .ok a =>
      let g := stamp_group a now
      if ttl ≠ 0 then ⟨.ok, some g, (cache_insert alloc_ok (group_key_matches k) g cache).2, 1⟩
      else ⟨.ok, some g, cache, 1⟩
  match cache_find (group_key_matches k) cache with
  | some e =>
    if (now : Int) - (e.last_updated : Int) < ttl then ⟨.ok, some e, cache, 0⟩
    else backend
  | none => backend

/-! ## Directory (LDAP) backend (idmap.c lines 558-656, 682-718, 849-871) -/

/-- The value slot of `struct idmap_lookup`: `TYPE_INT` lookups carry a
numeric id (cast through `PTR2UINT`), `TYPE_STR` lookups a string. -/
inductive filter_val where
  | intV (u : Nat)
  | strV (s : String)
deriving Repr, DecidableEq

/-- `struct idmap_lookup` (the `compare` member lives in `user_key` /
`group_key`; the `type` member is the `filter_val` constructor). -/
structure lookup_desc where
  attr : ldap_attr
  klass : ldap_class
  value : filter_val
deriving Repr, DecidableEq

/-- Render the lookup value as `%u` does for a `UINT`. -/
def uint_dec (n : Nat) : String := toString (n % 2 ^ 32)

/-- `idmap_filter`: format
`(&(objectClass=<class>)(<attribute>=<value>))` into the fixed
`FILTER_LEN`-byte buffer; `StringCchPrintfA` fails when the formatted string
(terminator included) does not fit. -/
def idmap_filter (cfg : idmap_config) (lk : lookup_desc) : Except Status String :=
  let vs := match lk.value with
    | .intV u => uint_dec u
    | .strV s => s
  let f := "(&(objectClass=" ++ config_class cfg lk.klass ++ ")("
    ++ config_attr cfg lk.attr ++ "=" ++ vs ++ "))"
  if FILTER_LEN ≤ f.length then .error .errBufferOverflow else .ok f

/-- A directory entry: attribute name to first value
(`ldap_get_valuesA` returning `NULL` is `none`). -/
def LdapEntry : Type := String → Option String

/-- The attribute-fetch loop of `idmap_query_attrs`: for each attribute in
the mask, fetch its value; a missing attribute outside the optional mask
fails with `LDAP_NO_SUCH_ATTRIBUTE` (mapped to the generic domain). -/
def fetch_attrs (cfg : idmap_config) (entry : LdapEntry)
    (attributes optional : Nat) :
    List ldap_attr → Except Status (List (ldap_attr × Option String))
  | [] => .ok []
  | a :: rest =>
    if Nat.testBit attributes (attr_idx a) then
      match entry (config_attr cfg a) with
      | some v =>
        match fetch_attrs cfg entry attributes optional rest with
        | .error s => .error s
        | .ok l => .ok ((a, some v) :: l)
      | none =>
        if Nat.testBit optional (attr_idx a) then
          match fetch_attrs cfg entry attributes optional rest with
          | .error s => .error s
          | .ok l => .ok ((a, none) :: l)
        else .error .errNoSuchAttribute
    else
      match fetch_attrs cfg entry attributes optional rest with
      | .error s => .error s
      | .ok l => .ok ((a, none) :: l)

/-- `idmap_query_attrs`: build the filter, run one synchronous subtree search
rooted at `config->base` (`search` models `ldap_search_stA` with its error
codes already mapped to the generic domain), take the first entry (none is
`LDAP_NO_RESULTS_RETURNED`), then fetch required/optional attributes. -/
def idmap_query_attrs (cfg : idmap_config)
    (search : String → String → Except Status (List LdapEntry))
    (lk : lookup_desc) (attributes optional : Nat) :
    Except Status (List (ldap_attr × Option String)) :=
  match idmap_filter cfg lk with
  | .error s => .error s
  | .ok filter =>
    match search cfg.base filter with
    | .error s => .error s
    | .ok [] => .error .errNoResults
    | .ok (entry :: _) => fetch_attrs cfg entry attributes optional all_attrs

/-- `values[attr]` after the fetch loop. -/
def getv (l : List (ldap_attr × Option String)) (a : ldap_attr) : Option String :=
  (l.lookup a).join

/-- Attribute masks of `idmap_lookup_user` (LDAP build): username, principal,
uid, gid requested; principal optional. -/
def user_attr_mask : Nat :=
  ATTR_FLAG .ATTR_USER_NAME + ATTR_FLAG .ATTR_PRINCIPAL
    + ATTR_FLAG .ATTR_UID + ATTR_FLAG .ATTR_GID

def user_opt_mask : Nat := ATTR_FLAG .ATTR_PRINCIPAL

/-- Attribute masks of `idmap_lookup_group`: group name and gid, none
optional. -/
def group_attr_mask : Nat :=
  ATTR_FLAG .ATTR_GROUP_NAME + ATTR_FLAG .ATTR_GID

/-- The `struct idmap_lookup` built by the user-facing facade operations. -/
def user_lookup_of : user_key → lookup_desc
  | .byName n => ⟨.ATTR_USER_NAME, .CLASS_USER, .strV n⟩
  | .byUid u => ⟨.ATTR_UID, .CLASS_USER, .intV u⟩
  | .byPrincipal p => ⟨.ATTR_PRINCIPAL, .CLASS_USER, .strV p⟩

def group_lookup_of : group_key → lookup_desc
  | .byGroupName n => ⟨.ATTR_GROUP_NAME, .CLASS_GROUP, .strV n⟩
  | .byGid g => ⟨.ATTR_GID, .CLASS_GROUP, .intV g⟩

/-- The LDAP middle section of `idmap_lookup_user` (lines 682-718): query the
four user attributes, then copy/parse them — bounded string copies for
username and principal (absent principal becomes the empty string), and
`parse_uint` for uid and gid. -/
def ldap_user_backend (cfg : idmap_config)
    (search : String → String → Except Status (List LdapEntry))
    (k : user_key) : Except Status user_attrs :=
  match idmap_query_attrs cfg search (user_lookup_of k) user_attr_mask user_opt_mask with
  | .error s => .error s
  | .ok vals =>
    let uname := (getv vals .ATTR_USER_NAME).getD ""
    if VAL_LEN ≤ uname.length then .error .errBufferOverflow
    else
      let pr := (getv vals .ATTR_PRINCIPAL).getD ""
      if VAL_LEN ≤ pr.length then .error .errBufferOverflow
      else
        match parse_uint ((getv vals .ATTR_UID).getD "").toList with
        | none => .error .errInvalidParameter
        | some uid =>
          match parse_uint ((getv vals .ATTR_GID).getD "").toList with
          | none => .error .errInvalidParameter
          | some gid => .ok ⟨uname, pr, uid, gid⟩

/-- The LDAP middle section of `idmap_lookup_group` (lines 849-871). -/
def ldap_group_backend (cfg : idmap_config)
    (search : String → String → Except Status (List LdapEntry))
    (k : group_key) : Except Status group_attrs :=
  match idmap_query_attrs cfg search (group_lookup_of k) group_attr_mask 0 with
  | .error s => .error s
  | .ok vals =>
    let gname := (getv vals .ATTR_GROUP_NAME).getD ""
    if VAL_LEN ≤ gname.length then .error .errBufferOverflow
    else
      match parse_uint ((getv vals .ATTR_GID).getD "").toList with
      | none => .error .errInvalidParameter
      | some gid => .ok ⟨gname, gid⟩

/-! ## Alternate local backend (cygwin build, idmap.c lines 719-804)

`cygwin_getent_passwd(name, res, &uid, &gid)` resolves a local account; the
model takes it as a function from the queried name to an optional account
record. -/

structure passwd_ent where
  name : String
  uid : Nat
  gid : Nat
deriving Repr, DecidableEq

/-- `strcpy_s(dst, 257, src)`: on success the copy, on failure (source too
long for the destination buffer) the destination is emptied and the ignored
error reported. -/
def strcpy_s_257 (src : String) : String :=
  if src.length ≤ VAL_LEN - 1 then src else ""

/-- `snprintf(buf, 257, "%s@%s", a, b)` truncates to 256 characters. -/
def snprintf_principal (a b : String) : String :=
  str_take (a ++ "@" ++ b) (VAL_LEN - 1)

/-- The `ATTR_USER_NAME` arm: look the name up locally and synthesize
`principal = name + "@" + localdomain`. -/
def cygwin_lookup_username (localdomain : String)
    (getent : String → Option passwd_ent) (value : String) :
    Except Status user_attrs :=
  match getent value with
  | none => .error .errNotFound
  | some ent =>
    .ok ⟨strcpy_s_257 value, snprintf_principal value localdomain, ent.uid, ent.gid⟩

/-- The `ATTR_PRINCIPAL` arm as the code writes it: strip the suffix after
`@` into `search_name` and resolve it locally, then synthesize
`principal_name` by appending `"@" + localdomain` to the **original lookup
value** (`"%s@%s", lookup->value, localdomain_name`) and succeed only if
`principal_name` compares equal to the original value. -/
def cygwin_lookup_principal (localdomain : String)
    (getent : String → Option passwd_ent) (value : String) :
    Except Status user_attrs :=
  let search_name := str_takeWhile (· ≠ '@') (strcpy_s_257 value)
  match getent search_name with
  | none => .error .errNotFound
  | some ent =>
    let principal_name := snprintf_principal value localdomain
    if principal_name = value then
      .ok ⟨search_name, principal_name, ent.uid, ent.gid⟩
    else .error .errNotFound

/-- Modelled from the spec: §4.4's principal→identity contract, which
re-synthesizes the principal **from the found account** (the stripped name)
as `name + "@" + localdomain` and succeeds only if that reproduces the
original principal string exactly. Stated separately to compare the claim
with `cygwin_lookup_principal` above. -/
def spec_principal_to_identity (localdomain : String)
    (getent : String → Option passwd_ent) (value : String) :
    Except Status user_attrs :=
  let stripped := str_takeWhile (· ≠ '@') value
  match getent stripped with
  | none => .error .errNotFound
  | some ent =>
    let resynth := stripped ++ "@" ++ localdomain
    if resynth = value then .ok ⟨stripped, resynth, ent.uid, ent.gid⟩
    else .error .errNotFound

/-! ## Mapper facade (idmap.c lines 934-1293)

`struct idmap_context` owns the config and both caches. Out-parameters are
modelled as `Option` results (`none` when the call fails without writing
them); the last component counts backend queries issued by the call. -/

structure idmap_context where
  config : idmap_config
  users : List idmap_user
  groups : List idmap_group

/-- `nfs41_idmap_name_to_uid`. -/
def nfs41_idmap_name_to_uid (B : user_key → Except Status user_attrs)
    (alloc_ok : Bool) (now : Nat) (ctx : idmap_context) (username : String) :
    Status × Option Nat × idmap_context × Nat :=
  let r := idmap_lookup_user B ctx.config.cache_ttl alloc_ok now ctx.users (.byName username)
  let ctx' := { ctx with users := r.users }
  match r.status, r.value with
  | .ok, some u => (.ok, some u.uid, ctx', r.queries)
  | st, _ => (st, none, ctx', r.queries)

/-- `nfs41_idmap_name_to_ids`: the one facade operation that checks its
context argument — a `NULL` context returns `ERROR_FILE_NOT_FOUND` before
any cache or backend work. -/
def nfs41_idmap_name_to_ids (B : user_key → Except Status user_attrs)
    (alloc_ok : Bool) (now : Nat) (octx : Option idmap_context) (username : String) :
    Status × Option (Nat × Nat) × Option idmap_context × Nat :=
  match octx with
  | none => (.errFileNotFound, none, none, 0)
  | some ctx =>
    let r := idmap_lookup_user B ctx.config.cache_ttl alloc_ok now ctx.users (.byName username)
    let ctx' := { ctx with users := r.users }
    match r.status, r.value with
    | .ok, some u => (.ok, some (u.uid, u.gid), some ctx', r.queries)
    | st, _ => (st, none, some ctx', r.queries)

/-- `nfs41_idmap_uid_to_name`: the resolved username is copied into the
caller's `len`-byte buffer; `StringCchCopyA` fails when it does not fit. -/
def nfs41_idmap_uid_to_name (B : user_key → Except Status user_attrs)
    (alloc_ok : Bool) (now : Nat) (ctx : idmap_context) (uid : Nat) (len : Nat) :
    Status × Option String × idmap_context × Nat :=
  let r := idmap_lookup_user B ctx.config.cache_ttl alloc_ok now ctx.users (.byUid uid)
  let ctx' := { ctx with users := r.users }
  match r.status, r.value with
  | .ok, some u =>
    if len ≤ u.username.length then (.errBufferOverflow, none, ctx', r.queries)
    else (.ok, some u.username, ctx', r.queries)
  | st, _ => (st, none, ctx', r.queries)

/-- `nfs41_idmap_principal_to_ids`. -/
def nfs41_idmap_principal_to_ids (B : user_key → Except Status user_attrs)
    (alloc_ok : Bool) (now : Nat) (ctx : idmap_context) (principal : String) :
    Status × Option (Nat × Nat) × idmap_context × Nat :=
  let r := idmap_lookup_user B ctx.config.cache_ttl alloc_ok now ctx.users (.byPrincipal principal)
  let ctx' := { ctx with users := r.users }
  match r.status, r.value with
  | .ok, some u => (.ok, some (u.uid, u.gid), ctx', r.queries)
  | st, _ => (st, none, ctx', r.queries)

/-- `nfs41_idmap_group_to_gid`. -/
def nfs41_idmap_group_to_gid (B : group_key → Except Status group_attrs)
    (alloc_ok : Bool) (now : Nat) (ctx : idmap_context) (name : String) :
    Status × Option Nat × idmap_context × Nat :=
  let r := idmap_lookup_group B ctx.config.cache_ttl alloc_ok now ctx.groups (.byGroupName name)
  let ctx' := { ctx with groups := r.groups }
  match r.status, r.value with
  | .ok, some g => (.ok, some g.gid, ctx', r.queries)
  | st, _ => (st, none, ctx', r.queries)

/-- `nfs41_idmap_gid_to_group`. -/
def nfs41_idmap_gid_to_group (B : group_key → Except Status group_attrs)
    (alloc_ok : Bool) (now : Nat) (ctx : idmap_context) (gid : Nat) (len : Nat) :
    Status × Option String × idmap_context × Nat :=
  let r := idmap_lookup_group B ctx.config.cache_ttl alloc_ok now ctx.groups (.byGid gid)
  let ctx' := { ctx with groups := r.groups }
  match r.status, r.value with
  | .ok, some g =>
    if len ≤ g.name.length then (.errBufferOverflow, none, ctx', r.queries)
    else (.ok, some g.name, ctx', r.queries)
  | st, _ => (st, none, ctx', r.queries)

/-! ## Predicates used by the round-trip and TTL statements -/

/-- A cache entry agrees with the backend: querying the backend by the
entry's username finds a record carrying that same username and the entry's
uid. -/
def entry_good (B : user_key → Except Status user_attrs) (e : idmap_user) : Prop :=
  ∃ r, B (.byName e.username) = .ok r ∧ r.username = e.username ∧ r.uid = e.uid

/-- Every cache entry that is still fresh at `now` agrees with the backend. -/
def good_cache (B : user_key → Except Status user_attrs) (ttl : Int) (now : Nat)
    (cache : List idmap_user) : Prop :=
  ∀ e ∈ cache, (now : Int) - (e.last_updated : Int) < ttl → entry_good B e

/-- The claim's internal-consistency hypothesis on the backend: the record
found by name and the record found by the uid it returned carry the same
username and uid. -/
def backend_consistent (B : user_key → Except Status user_attrs) : Prop :=
  ∀ m rm, B (.byName m) = .ok rm →
    ∃ ru, B (.byUid rm.uid) = .ok ru ∧ ru.username = rm.username ∧ ru.uid = rm.uid

/-! ## Concrete instances used to witness the theorems -/

/-- A one-account local database. -/
def demo_getent : String → Option passwd_ent :=
  fun s => if s = "alice" then some ⟨"alice", 1000, 513⟩ else none

/-- A one-user backend mapping "alice" ↔ uid 1000. -/
def demo_backend : user_key → Except Status user_attrs :=
  fun k =>
    match k with
    | .byName n => if n = "alice" then .ok ⟨"alice", "", 1000, 513⟩ else .error .errNotFound
    | .byUid u => if u = 1000 then .ok ⟨"alice", "", 1000, 513⟩ else .error .errNotFound
    | .byPrincipal _ => .error .errNotFound

/-- A backend that always reports a group as absent. -/
def demo_group_backend : group_key → Except Status group_attrs :=
  fun _ => .error .errNotFound

/-! ## Helper lemmas -/

lemma takeWhile_append_all {α : Type} {p : α → Bool} {l1 l2 : List α}
    (h : ∀ a ∈ l1, p a = true) :
    (l1 ++ l2).takeWhile p = l1 ++ l2.takeWhile p := by
  induction l1 with
  | nil => simp
  | cons a l ih =>
    have ha : p a = true := h a (by simp)
    simp only [List.cons_append, List.takeWhile_cons, ha, if_true]
    rw [ih (fun x hx => h x (by simp [hx]))]

lemma dropWhile_append_all {α : Type} {p : α → Bool} {l1 l2 : List α}
    (h : ∀ a ∈ l1, p a = true) :
    (l1 ++ l2).dropWhile p = l2.dropWhile p := by
  induction l1 with
  | nil => simp
  | cons a l ih =>
    have ha : p a = true := h a (by simp)
    simp only [List.cons_append, List.dropWhile_cons, ha, if_true]
    exact ih (fun x hx => h x (by simp [hx]))

lemma takeWhile_all {α : Type} {p : α → Bool} {l : List α}
    (h : ∀ a ∈ l, p a = true) : l.takeWhile p = l :=
  List.takeWhile_eq_self_iff.mpr h

lemma c_isdigit_ge {c : Char} (h : c_isdigit c = true) : '0' ≤ c := by
  unfold c_isdigit at h
  exact of_decide_eq_true ((Bool.and_eq_true _ _).mp h).1

lemma c_isspace_of_digit {c : Char} (h : c_isdigit c = true) : c_isspace c = false := by
  have h0 := c_isdigit_ge h
  apply Bool.eq_false_iff.mpr
  intro htrue
  simp only [c_isspace, Bool.or_eq_true, decide_eq_true_eq] at htrue
  rcases htrue with ((((rfl | rfl) | rfl) | rfl) | rfl) | rfl <;> exact absurd h0 (by decide)

lemma ne_dash_of_digit {c : Char} (h : c_isdigit c = true) : c ≠ '-' :=
  fun e => absurd (e ▸ c_isdigit_ge h) (by decide)

lemma ne_plus_of_digit {c : Char} (h : c_isdigit c = true) : c ≠ '+' :=
  fun e => absurd (e ▸ c_isdigit_ge h) (by decide)

/-- `strtoul10` on a nonempty all-digit string consumes the whole string. -/
lemma strtoul10_all_digits {s : List Char} (h : s ≠ [])
    (hall : ∀ x ∈ s, c_isdigit x = true) :
    strtoul10 s =
      if ULONG_MAX < digitsVal s then ⟨ULONG_MAX, s.length, true⟩
      else ⟨digitsVal s, s.length, false⟩ := by
  obtain ⟨a, as, rfl⟩ := List.exists_cons_of_ne_nil h
  have ha : c_isdigit a = true := hall a (by simp)
  have hsp := c_isspace_of_digit ha
  have hd := ne_dash_of_digit ha
  have hp := ne_plus_of_digit ha
  have hds : (a :: as).takeWhile c_isdigit = a :: as := takeWhile_all hall
  have e1 : (a :: as).dropWhile c_isspace = a :: as := by
    rw [List.dropWhile_cons, hsp]; simp
  have e2 : (a :: as).takeWhile c_isspace = [] := by
    rw [List.takeWhile_cons, hsp]; simp
  unfold strtoul10
  simp only [e1, e2]
  simp only [List.head?_cons, Option.some.injEq, List.length_nil, hd, hp,
    decide_False, Bool.or_self, Bool.false_eq_true, if_false, List.drop_zero, hds,
    List.isEmpty_cons, Nat.zero_add, List.length_cons]

/-- `strtoul10` on digits followed by a non-digit stops at the junk. -/
lemma strtoul10_digits_junk {s t : List Char} {c : Char} (h : s ≠ [])
    (hall : ∀ x ∈ s, c_isdigit x = true) (hc : c_isdigit c = false) :
    (strtoul10 (s ++ c :: t)).endIdx = s.length := by
  obtain ⟨a, as, rfl⟩ := List.exists_cons_of_ne_nil h
  have ha : c_isdigit a = true := hall a (by simp)
  have hsp := c_isspace_of_digit ha
  have hd := ne_dash_of_digit ha
  have hp := ne_plus_of_digit ha
  have hds : (a :: (as ++ c :: t)).takeWhile c_isdigit = a :: as := by
    have hstep : ((a :: as) ++ c :: t).takeWhile c_isdigit =
        (a :: as) ++ (c :: t).takeWhile c_isdigit := takeWhile_append_all hall
    rw [List.cons_append] at hstep
    rw [hstep, List.takeWhile_cons, hc]
    simp
  have e1 : (a :: (as ++ c :: t)).dropWhile c_isspace = a :: (as ++ c :: t) := by
    rw [List.dropWhile_cons, hsp]; simp
  have e2 : (a :: (as ++ c :: t)).takeWhile c_isspace = [] := by
    rw [List.takeWhile_cons, hsp]; simp
  unfold strtoul10
  simp only [List.cons_append, e1, e2]
  simp only [List.head?_cons, Option.some.injEq, List.length_nil, hd, hp,
    decide_False, Bool.or_self, Bool.false_eq_true, if_false, List.drop_zero, hds,
    List.isEmpty_cons, Nat.zero_add, List.length_cons]
  split <;> rfl

/-- `parse_uint` on a nonempty all-digit string: accepted exactly when the
value fits in 32 bits. -/
lemma parse_uint_all_digits {s : List Char} (h : s ≠ [])
    (hall : ∀ x ∈ s, c_isdigit x = true) :
    parse_uint s = if digitsVal s < 2 ^ 32 then some (digitsVal s) else none := by
  have h32 : (2 : Nat) ^ 32 = ULONG_MAX + 1 := by norm_num [ULONG_MAX]
  unfold parse_uint
  rw [strtoul10_all_digits h hall]
  by_cases hv : ULONG_MAX < digitsVal s
  · have hnot : ¬ digitsVal s < 2 ^ 32 := by
      rw [h32]; exact fun hlt => absurd (Nat.lt_succ_iff.mp hlt) (not_le.mpr hv)
    rw [if_pos hv, if_neg hnot]
    simp
  · have hyes : digitsVal s < 2 ^ 32 := by
      rw [h32]; exact Nat.lt_succ_iff.mpr (not_lt.mp hv)
    rw [if_neg hv, if_pos hyes]
    simp

/-- `parse_uint` rejects digits followed by a non-digit character. -/
lemma parse_uint_digits_junk {s t : List Char} {c : Char} (h : s ≠ [])
    (hall : ∀ x ∈ s, c_isdigit x = true) (hc : c_isdigit c = false) :
    parse_uint (s ++ c :: t) = none := by
  have he : (strtoul10 (s ++ c :: t)).endIdx = s.length := strtoul10_digits_junk h hall hc
  have hlt : (strtoul10 (s ++ c :: t)).endIdx < (s ++ c :: t).length := by
    rw [he, List.length_append, List.length_cons]
    omega
  simp only [parse_uint, hlt, if_true]

/-! ### Cache and lookup-engine lemmas -/

lemma mem_cache_overwrite {α : Type} {m : α → Bool} {src x : α} :
    ∀ {c : List α}, x ∈ cache_overwrite m src c → x = src ∨ x ∈ c := by
  intro c
  induction c with
  | nil => intro hx; simp [cache_overwrite] at hx
  | cons e rest ih =>
    intro hx
    unfold cache_overwrite at hx
    by_cases hm : m e = true
    · rw [if_pos hm] at hx
      rcases List.mem_cons.mp hx with rfl | hx'
      · exact Or.inl rfl
      · exact Or.inr (List.mem_cons_of_mem _ hx')
    · rw [if_neg hm] at hx
      rcases List.mem_cons.mp hx with rfl | hx'
      · exact Or.inr (List.mem_cons_self _ _)
      · rcases ih hx' with h1 | h2
        · exact Or.inl h1
        · exact Or.inr (List.mem_cons_of_mem _ h2)

lemma mem_cache_insert {α : Type} {alloc : Bool} {m : α → Bool} {src x : α}
    {c : List α} (hx : x ∈ (cache_insert alloc m src c).2) : x = src ∨ x ∈ c := by
  unfold cache_insert at hx
  by_cases h1 : c.any m = true
  · rw [if_pos h1] at hx
    exact mem_cache_overwrite hx
  · rw [if_neg h1] at hx
    by_cases h2 : alloc = true
    · rw [if_pos h2] at hx
      rcases List.mem_cons.mp hx with rfl | hx'
      · exact Or.inl rfl
      · exact Or.inr hx'
    · rw [if_neg h2] at hx
      exact Or.inr hx

/-- A fresh cache hit returns the cached entry with no backend query. -/
lemma lookup_user_hit_fresh {B : user_key → Except Status user_attrs} {ttl : Int}
    {alloc : Bool} {now : Nat} {cache : List idmap_user} {k : user_key} {e : idmap_user}
    (hf : cache_find (user_key_matches k) cache = some e)
    (hfresh : (now : Int) - (e.last_updated : Int) < ttl) :
    idmap_lookup_user B ttl alloc now cache k = ⟨.ok, some e, cache, 0⟩ := by
  unfold idmap_lookup_user
  simp only [hf]
  rw [if_pos hfresh]

/-- On a miss or a stale hit, the lookup reduces to the backend path. -/
lemma lookup_user_backend_eq {B : user_key → Except Status user_attrs} {ttl : Int}
    {alloc : Bool} {now : Nat} {cache : List idmap_user} {k : user_key}
    (h : ∀ e, cache_find (user_key_matches k) cache = some e →
      ¬((now : Int) - (e.last_updated : Int) < ttl)) :
    idmap_lookup_user B ttl alloc now cache k =
      match B k with
      | .error s => ⟨s, none, cache, 1⟩
      | .ok a =>
        if ttl ≠ 0 then
          ⟨.ok, some (stamp_user a now),
            (cache_insert alloc (user_key_matches k) (stamp_user a now) cache).2, 1⟩
        else ⟨.ok, some (stamp_user a now), cache, 1⟩ := by
  unfold idmap_lookup_user
  cases hf : cache_find (user_key_matches k) cache with
  | none => simp only [hf]
  | some e =>
    simp only [hf]
    rw [if_neg (h e hf)]

lemma lookup_group_hit_fresh {B : group_key → Except Status group_attrs} {ttl : Int}
    {alloc : Bool} {now : Nat} {cache : List idmap_group} {k : group_key} {e : idmap_group}
    (hf : cache_find (group_key_matches k) cache = some e)
    (hfresh : (now : Int) - (e.last_updated : Int) < ttl) :
    idmap_lookup_group B ttl alloc now cache k = ⟨.ok, some e, cache, 0⟩ := by
  unfold idmap_lookup_group
  simp only [hf]
  rw [if_pos hfresh]

lemma lookup_group_backend_eq {B : group_key → Except Status group_attrs} {ttl : Int}
    {alloc : Bool} {now : Nat} {cache : List idmap_group} {k : group_key}
    (h : ∀ e, cache_find (group_key_matches k) cache = some e →
      ¬((now : Int) - (e.last_updated : Int) < ttl)) :
    idmap_lookup_group B ttl alloc now cache k =
      match B k with
      | .error s => ⟨s, none, cache, 1⟩
      | .ok a =>
        if ttl ≠ 0 then
          ⟨.ok, some (stamp_group a now),
            (cache_insert alloc (group_key_matches k) (stamp_group a now) cache).2, 1⟩
        else ⟨.ok, some (stamp_group a now), cache, 1⟩ := by
  unfold idmap_lookup_group
  cases hf : cache_find (group_key_matches k) cache with
  | none => simp only [hf]
  | some e =>
    simp only [hf]
    rw [if_neg (h e hf)]

/-- Entries of the post-lookup user list: either an old entry or the stamped
backend record. -/
lemma mem_lookup_user_users {B : user_key → Except Status user_attrs} {ttl : Int}
    {alloc : Bool} {now : Nat} {cache : List idmap_user} {k : user_key} {x : idmap_user}
    (hx : x ∈ (idmap_lookup_user B ttl alloc now cache k).users) :
    x ∈ cache ∨ ∃ a, B k = .ok a ∧ x = stamp_user a now := by
  by_cases hfr : ∃ e, cache_find (user_key_matches k) cache = some e ∧
      (now : Int) - (e.last_updated : Int) < ttl
  · obtain ⟨e, hf, hfresh⟩ := hfr
    rw [lookup_user_hit_fresh hf hfresh] at hx
    exact Or.inl hx
  · have hcond : ∀ e, cache_find (user_key_matches k) cache = some e →
        ¬((now : Int) - (e.last_updated : Int) < ttl) :=
      fun e hf hfresh => hfr ⟨e, hf, hfresh⟩
    rw [lookup_user_backend_eq hcond] at hx
    cases hB : B k with
    | error s =>
      simp only [hB] at hx
      exact Or.inl hx
    | ok a =>
      simp only [hB] at hx
      by_cases ht : ttl ≠ 0
      · rw [if_pos ht] at hx
        rcases mem_cache_insert hx with rfl | hx'
        · exact Or.inr ⟨a, rfl, rfl⟩
        · exact Or.inl hx'
      · rw [if_neg ht] at hx
        exact Or.inl hx

/-- Freshness-consistency of the user cache is preserved by a lookup whose
backend results agree with the backend. -/
lemma lookup_user_good_preserved {B : user_key → Except Status user_attrs} {ttl : Int}
    {alloc : Bool} {now : Nat} {cache : List idmap_user} {k : user_key}
    (hg : good_cache B ttl now cache)
    (hk : ∀ a, B k = .ok a → entry_good B (stamp_user a now)) :
    good_cache B ttl now (idmap_lookup_user B ttl alloc now cache k).users := by
  intro x hx hfresh
  rcases mem_lookup_user_users hx with hx' | ⟨a, hBa, rfl⟩
  · exact hg x hx' hfresh
  · exact hk a hBa

/-- A by-name lookup under a consistent backend returns a record named `n`
that agrees with the backend. -/
lemma lookup_user_byName_spec {B : user_key → Except Status user_attrs} {ttl : Int}
    (alloc : Bool) {now : Nat} {cache : List idmap_user} {n : String} {r : user_attrs}
    (hB : B (.byName n) = .ok r) (hr : r.username = n)
    (hg : good_cache B ttl now cache) :
    (idmap_lookup_user B ttl alloc now cache (.byName n)).status = .ok ∧
    ∃ u, (idmap_lookup_user B ttl alloc now cache (.byName n)).value = some u ∧
      u.username = n ∧ entry_good B u := by
  by_cases hfr : ∃ e, cache_find (user_key_matches (.byName n)) cache = some e ∧
      (now : Int) - (e.last_updated : Int) < ttl
  · obtain ⟨e, hf, hfresh⟩ := hfr
    rw [lookup_user_hit_fresh hf hfresh]
    have hmatch : user_key_matches (.byName n) e = true := List.find?_some hf
    have hen : e.username = n := by simpa [user_key_matches] using hmatch
    have hmem : e ∈ cache := List.mem_of_find?_eq_some hf
    exact ⟨rfl, e, rfl, hen, hg e hmem hfresh⟩
  · have hcond : ∀ e, cache_find (user_key_matches (.byName n)) cache = some e →
        ¬((now : Int) - (e.last_updated : Int) < ttl) :=
      fun e hf hfresh => hfr ⟨e, hf, hfresh⟩
    rw [lookup_user_backend_eq hcond]
    simp only [hB]
    have hgood : entry_good B (stamp_user r now) := by
      refine ⟨r, ?_, rfl, rfl⟩
      show B (.byName r.username) = .ok r
      rw [hr, hB]
    by_cases ht : ttl ≠ 0
    · rw [if_pos ht]
      exact ⟨rfl, stamp_user r now, rfl, hr, hgood⟩
    · rw [if_neg ht]
      exact ⟨rfl, stamp_user r now, rfl, hr, hgood⟩

/-- A by-uid lookup under a consistent backend returns the backend's username
for that uid. -/
lemma lookup_user_byUid_spec {B : user_key → Except Status user_attrs} {ttl : Int}
    (alloc : Bool) {now : Nat} {cache : List idmap_user} {u : Nat} {ru : user_attrs}
    {nm : String}
    (hB : B (.byUid u) = .ok ru) (hru : ru.username = nm)
    (hcons : backend_consistent B)
    (hg : good_cache B ttl now cache) :
    (idmap_lookup_user B ttl alloc now cache (.byUid u)).status = .ok ∧
    ∃ w, (idmap_lookup_user B ttl alloc now cache (.byUid u)).value = some w ∧
      w.username = nm := by
  by_cases hfr : ∃ e, cache_find (user_key_matches (.byUid u)) cache = some e ∧
      (now : Int) - (e.last_updated : Int) < ttl
  · obtain ⟨e, hf, hfresh⟩ := hfr
    rw [lookup_user_hit_fresh hf hfresh]
    have hmatch : user_key_matches (.byUid u) e = true := List.find?_some hf
    have heu : e.uid = u := by simpa [user_key_matches] using hmatch
    have hmem : e ∈ cache := List.mem_of_find?_eq_some hf
    obtain ⟨re, hre, hreu, hreuid⟩ := hg e hmem hfresh
    obtain ⟨ru', hru', hru'u, _⟩ := hcons e.username re hre
    rw [hreuid, heu, hB] at hru'
    have heq : ru = ru' := by injection hru'
    refine ⟨rfl, e, rfl, ?_⟩
    rw [← hreu, ← hru'u, ← heq]
    exact hru
  · have hcond : ∀ e, cache_find (user_key_matches (.byUid u)) cache = some e →
        ¬((now : Int) - (e.last_updated : Int) < ttl) :=
      fun e hf hfresh => hfr ⟨e, hf, hfresh⟩
    rw [lookup_user_backend_eq hcond]
    simp only [hB]
    by_cases ht : ttl ≠ 0
    · rw [if_pos ht]
      exact ⟨rfl, stamp_user ru now, rfl, hru⟩
    · rw [if_neg ht]
      exact ⟨rfl, stamp_user ru now, rfl, hru⟩

lemma takeWhile_ne_hash_idem (l : List Char) :
    (l.takeWhile (· ≠ '#')).takeWhile (· ≠ '#') = l.takeWhile (· ≠ '#') := by
  apply takeWhile_all
  intro a ha
  simpa using List.mem_takeWhile_imp ha

/-- Parsing a line only looks at its prefix before the first `#`. -/
lemma config_parse_pair_strip (l : List Char) :
    config_parse_pair l = config_parse_pair (l.takeWhile (· ≠ '#')) := by
  unfold config_parse_pair
  rw [takeWhile_ne_hash_idem]

/-! ## Claim theorems -/

/-- C5: a configuration file that cannot be opened is not an error:
`config_init` succeeds and every recognized key keeps its documented default
value (hostname `localhost`, port 389, version 3, timeout 0, base
`cn=localhost`, classes `user`/`group`, attributes `cn`/`cn`/`gssAuthName`/
`uidNumber`/`gidNumber`, cache TTL 6000); no field is modified from the
value `config_defaults` assigned. -/
theorem missing_config_defaults :
    config_init none =
      (.ok, { hostname := "localhost", localdomain_name := "", port := 389, version := 3,
              timeout := 0, class_user := "user", class_group := "group",
              attr_user_name := "cn", attr_group_name := "cn",
              attr_principal := "gssAuthName", attr_uid := "uidNumber",
              attr_gid := "gidNumber", base := "cn=localhost", cache_ttl := 6000 }) ∧
    config_init none = (.ok, (config_defaults zero_config).2) := by
  constructor <;> rfl

/-- C2: the claim describes the intended behavior (spec §4.4) and the code
deviates from it. `spec_principal_to_identity` (the claim's words) succeeds
on the matching-domain principal `alice@LOCALDOM`, but the code's
`cygwin_lookup_principal` synthesizes the comparison principal from the full
original principal instead of the found account's stripped name, so its
equality check fails and the code returns NotFound on the same input. On a
wrong-domain principal both agree on NotFound. -/
theorem cygwin_principal_check_bug :
    cygwin_lookup_principal "LOCALDOM" demo_getent "alice@LOCALDOM" = .error .errNotFound ∧
    spec_principal_to_identity "LOCALDOM" demo_getent "alice@LOCALDOM" =
      .ok ⟨"alice", "alice@LOCALDOM", 1000, 513⟩ ∧
    spec_principal_to_identity "LOCALDOM" demo_getent "alice@WRONGDOM" =
      .error .errNotFound := by
  refine ⟨by decide, by decide, by decide⟩

/-- C4 (counterexample): the claim's acceptance condition — the entire string
is an unsigned decimal numeral whose value fits in 32 bits — is violated by
the code: `parse_uint` accepts `"-1"` (the `strtoul` conversion consumes it
and negates modulo 2^32, with no range error), yet `"-1"` is not an unsigned
decimal numeral. -/
theorem parse_uint_iff_counterexample :
    parse_uint ("-1".toList) = some 4294967295 ∧
    spec_uint_accepts ("-1".toList) = none := by
  constructor <;> rfl

/-- C4 (amended): a value for an integer-typed key is accepted iff the
`strtoul` decimal conversion — optional leading whitespace and a single
sign allowed, a minus negating modulo 2^32 — consumes the whole string with
no 32-bit overflow. In particular an all-digit string is accepted with its
numeric value exactly when that value fits in 32 bits; digits followed by
trailing junk are rejected; `"123"` → 123, `"123abc"` rejected, and
`"4294967296"` (out of 32-bit range) rejected. -/
theorem parse_uint_amended :
    (∀ s : List Char, s ≠ [] → (∀ x ∈ s, c_isdigit x = true) →
      (digitsVal s < 2 ^ 32 → parse_uint s = some (digitsVal s)) ∧
      (2 ^ 32 ≤ digitsVal s → parse_uint s = none)) ∧
    (∀ (s t : List Char) (c : Char), s ≠ [] → (∀ x ∈ s, c_isdigit x = true) →
      c_isdigit c = false → parse_uint (s ++ c :: t) = none) ∧
    parse_uint ("123".toList) = some 123 ∧
    parse_uint ("123abc".toList) = none ∧
    parse_uint ("4294967296".toList) = none := by
  refine ⟨?_, ?_, rfl, rfl, rfl⟩
  · intro s hne hall
    constructor
    · intro hlt
      rw [parse_uint_all_digits hne hall, if_pos hlt]
    · intro hge
      rw [parse_uint_all_digits hne hall, if_neg (not_lt.mpr hge)]
  · intro s t c hne hall hc
    exact parse_uint_digits_junk hne hall hc

/-- Witness for C4 (amended): both quantified parts applied at concrete
inputs. -/
theorem parse_uint_amended_witness :
    parse_uint ("77".toList) = some 77 ∧ parse_uint ("5x".toList) = none := by
  constructor
  · exact (parse_uint_amended.1 ("77".toList) (by decide) (by decide)).1 (by decide)
  · exact parse_uint_amended.2.1 ("5".toList) [] 'x' (by decide) (by decide) (by decide)

/-- C7: the generated directory filter is exactly
`(&(objectClass=<class-for-kind>)(<attribute-for-lookup>=<value>))`, the
value rendered as an unsigned decimal for numeric lookups and as the raw,
unescaped string otherwise; a filter that does not fit the fixed
`FILTER_LEN` buffer fails with a buffer-overflow error. -/
theorem filter_grammar :
    (∀ (cfg : idmap_config) (klass : ldap_class) (attr : ldap_attr) (u : Nat),
      (("(&(objectClass=" ++ config_class cfg klass ++ ")(" ++ config_attr cfg attr
          ++ "=" ++ toString (u % 2 ^ 32) ++ "))").length < FILTER_LEN →
        idmap_filter cfg ⟨attr, klass, .intV u⟩ =
          .ok ("(&(objectClass=" ++ config_class cfg klass ++ ")(" ++ config_attr cfg attr
            ++ "=" ++ toString (u % 2 ^ 32) ++ "))")) ∧
      (FILTER_LEN ≤ ("(&(objectClass=" ++ config_class cfg klass ++ ")(" ++ config_attr cfg attr
          ++ "=" ++ toString (u % 2 ^ 32) ++ "))").length →
        idmap_filter cfg ⟨attr, klass, .intV u⟩ = .error .errBufferOverflow)) ∧
    (∀ (cfg : idmap_config) (klass : ldap_class) (attr : ldap_attr) (s : String),
      (("(&(objectClass=" ++ config_class cfg klass ++ ")(" ++ config_attr cfg attr
          ++ "=" ++ s ++ "))").length < FILTER_LEN →
        idmap_filter cfg ⟨attr, klass, .strV s⟩ =
          .ok ("(&(objectClass=" ++ config_class cfg klass ++ ")(" ++ config_attr cfg attr
            ++ "=" ++ s ++ "))")) ∧
      (FILTER_LEN ≤ ("(&(objectClass=" ++ config_class cfg klass ++ ")(" ++ config_attr cfg attr
          ++ "=" ++ s ++ "))").length →
        idmap_filter cfg ⟨attr, klass, .strV s⟩ = .error .errBufferOverflow)) := by
  constructor
  · intro cfg klass attr u
    constructor
    · intro h
      simp only [idmap_filter, uint_dec]
      rw [if_neg (not_le.mpr h)]
    · intro h
      simp only [idmap_filter, uint_dec]
      rw [if_pos h]
  · intro cfg klass attr s
    constructor
    · intro h
      simp only [idmap_filter]
      rw [if_neg (not_le.mpr h)]
    · intro h
      simp only [idmap_filter]
      rw [if_pos h]

/-- Witness for C7: the default configuration formats a by-name user filter
and a by-uid user filter. -/
theorem filter_grammar_witness :
    idmap_filter (config_init none).2 ⟨.ATTR_USER_NAME, .CLASS_USER, .strV "alice"⟩ =
      .ok "(&(objectClass=user)(cn=alice))" ∧
    idmap_filter (config_init none).2 ⟨.ATTR_UID, .CLASS_USER, .intV 1000⟩ =
      .ok "(&(objectClass=user)(uidNumber=1000))" := by
  constructor
  · have h := (filter_grammar.2 (config_init none).2 .CLASS_USER .ATTR_USER_NAME "alice").1
      (by decide)
    exact h.trans (by rfl)
  · have h := (filter_grammar.1 (config_init none).2 .CLASS_USER .ATTR_UID 1000).1
      (by decide)
    exact h.trans (by rfl)

/-- C3: the config line grammar. Anything from `#` on is stripped first
(parsing is unchanged when a `#` suffix is appended to a hash-free prefix);
all-whitespace lines are skipped by the read loop; a stripped line with no
`=` is rejected; a line whose value opens with `"` but has no closing `"` is
rejected; `foo = bar`, `foo = "bar"`, and `foo = bar # comment` all yield
key `foo` and value `bar`; `foo bar` is rejected; `foo = "bar` is rejected;
a quoted value keeps its whitespace verbatim while an unquoted value is
trimmed of trailing whitespace. -/
theorem config_line_grammar :
    (∀ (l rest : List Char), (∀ c ∈ l, c ≠ '#') →
      config_parse_pair (l ++ '#' :: rest) = config_parse_pair l) ∧
    (∀ (ln : List Char) (rest : List (List Char)) (c : idmap_config),
      (∀ x ∈ ln, c_isspace x = true) →
      config_load_lines (ln :: rest) c = config_load_lines rest c) ∧
    (∀ line : List Char, (∀ x ∈ line.takeWhile (· ≠ '#'), x ≠ '=') →
      config_parse_pair line = none) ∧
    (∀ (line body : List Char),
      ((((line.takeWhile (· ≠ '#')).dropWhile c_isspace).dropWhile (· ≠ '=')).tail).dropWhile
          c_isspace = '\"' :: body →
      body.any (· = '\"') = false →
      config_parse_pair line = none) ∧
    config_parse_pair ("foo = bar".toList) = some ("foo".toList, "bar".toList) ∧
    config_parse_pair ("foo = \"bar\"".toList) = some ("foo".toList, "bar".toList) ∧
    config_parse_pair ("foo = bar # comment".toList) = some ("foo".toList, "bar".toList) ∧
    config_parse_pair ("foo bar".toList) = none ∧
    config_parse_pair ("foo = \"bar".toList) = none ∧
    config_parse_pair ("foo = \" bar \"".toList) = some ("foo".toList, " bar ".toList) ∧
    config_parse_pair ("foo = bar   ".toList) = some ("foo".toList, "bar".toList) := by
  refine ⟨?_, ?_, ?_, ?_, by decide, by decide, by decide, by decide, by decide, by decide,
    by decide⟩
  · intro l rest h
    rw [config_parse_pair_strip (l ++ '#' :: rest), config_parse_pair_strip l]
    have hb : ∀ c ∈ l, (fun c => decide (c ≠ '#')) c = true := by
      intro c hc
      simpa using h c hc
    have h1 : (l ++ '#' :: rest).takeWhile (· ≠ '#') = l := by
      rw [takeWhile_append_all hb, List.takeWhile_cons]
      simp
    have h2 : l.takeWhile (· ≠ '#') = l := takeWhile_all hb
    rw [h1, h2]
  · intro ln rest c h
    have hp : ln.dropWhile c_isspace = [] := List.dropWhile_eq_nil_iff.mpr h
    simp [config_load_lines, hp]
  · intro line h
    rw [config_parse_pair_strip line]
    unfold config_parse_pair
    rw [takeWhile_ne_hash_idem]
    have hany : ((line.takeWhile (· ≠ '#')).dropWhile c_isspace).any (· = '=') = false := by
      rw [List.any_eq_false]
      intro x hx
      have hxl : x ∈ line.takeWhile (· ≠ '#') :=
        (List.dropWhile_sublist _).subset hx
      simpa using h x hxl
    dsimp only
    rw [hany]
    rfl
  · intro line body hv1 hbody
    rw [config_parse_pair_strip line]
    unfold config_parse_pair
    rw [takeWhile_ne_hash_idem]
    dsimp only
    by_cases hany : ((line.takeWhile (· ≠ '#')).dropWhile c_isspace).any (· = '=') = true
    · rw [hany, if_pos rfl]
      by_cases hk : (dropTrailing c_isspace
          (((line.takeWhile (· ≠ '#')).dropWhile c_isspace).takeWhile (· ≠ '='))).isEmpty = true
      · rw [if_pos hk]
      · rw [if_neg hk]
        simp only [hv1]
        rw [hbody]
        rfl
    · simp only [Bool.not_eq_true] at hany
      rw [hany]
      rfl

/-- Witness for C3: the no-`=` rejection rule applied at a concrete line. -/
theorem config_line_grammar_witness :
    config_parse_pair ("no equals sign here".toList) = none :=
  config_line_grammar.2.2.1 ("no equals sign here".toList) (by decide)

/-- C10: of the six facade operations only `nfs41_idmap_name_to_ids` checks
its context: with a `NULL` context it returns `ERROR_FILE_NOT_FOUND` with no
backend query and no outputs written; with a context it simply forwards the
lookup engine's status and query count; the other five operations
unconditionally run the lookup engine on any context (their query counts
always equal the engine's — there is no early-out). -/
theorem null_context_check :
    (∀ (B : user_key → Except Status user_attrs) (alloc : Bool) (now : Nat) (n : String),
      nfs41_idmap_name_to_ids B alloc now none n = (.errFileNotFound, none, none, 0)) ∧
    (∀ (B : user_key → Except Status user_attrs) (alloc : Bool) (now : Nat)
        (ctx : idmap_context) (n : String),
      (nfs41_idmap_name_to_ids B alloc now (some ctx) n).1 =
        (idmap_lookup_user B ctx.config.cache_ttl alloc now ctx.users (.byName n)).status ∧
      (nfs41_idmap_name_to_ids B alloc now (some ctx) n).2.2.2 =
        (idmap_lookup_user B ctx.config.cache_ttl alloc now ctx.users (.byName n)).queries) ∧
    (∀ (B : user_key → Except Status user_attrs) (alloc : Bool) (now : Nat)
        (ctx : idmap_context) (n : String),
      (nfs41_idmap_name_to_uid B alloc now ctx n).2.2.2 =
        (idmap_lookup_user B ctx.config.cache_ttl alloc now ctx.users (.byName n)).queries) ∧
    (∀ (B : user_key → Except Status user_attrs) (alloc : Bool) (now : Nat)
        (ctx : idmap_context) (u len : Nat),
      (nfs41_idmap_uid_to_name B alloc now ctx u len).2.2.2 =
        (idmap_lookup_user B ctx.config.cache_ttl alloc now ctx.users (.byUid u)).queries) ∧
    (∀ (B : user_key → Except Status user_attrs) (alloc : Bool) (now : Nat)
        (ctx : idmap_context) (p : String),
      (nfs41_idmap_principal_to_ids B alloc now ctx p).2.2.2 =
        (idmap_lookup_user B ctx.config.cache_ttl alloc now ctx.users (.byPrincipal p)).queries) ∧
    (∀ (Bg : group_key → Except Status group_attrs) (alloc : Bool) (now : Nat)
        (ctx : idmap_context) (n : String),
      (nfs41_idmap_group_to_gid Bg alloc now ctx n).2.2.2 =
        (idmap_lookup_group Bg ctx.config.cache_ttl alloc now ctx.groups (.byGroupName n)).queries) ∧
    (∀ (Bg : group_key → Except Status group_attrs) (alloc : Bool) (now : Nat)
        (ctx : idmap_context) (g len : Nat),
      (nfs41_idmap_gid_to_group Bg alloc now ctx g len).2.2.2 =
        (idmap_lookup_group Bg ctx.config.cache_ttl alloc now ctx.groups (.byGid g)).queries) := by
  refine ⟨fun B alloc now n => rfl, ?_, ?_, ?_, ?_, ?_, ?_⟩
  · intro B alloc now ctx n
    unfold nfs41_idmap_name_to_ids
    dsimp only
    generalize idmap_lookup_user B ctx.config.cache_ttl alloc now ctx.users (.byName n) = r
    rcases r with ⟨st, v, us, q⟩
    cases st <;> cases v <;> exact ⟨rfl, rfl⟩
  · intro B alloc now ctx n
    unfold nfs41_idmap_name_to_uid
    dsimp only
    generalize idmap_lookup_user B ctx.config.cache_ttl alloc now ctx.users (.byName n) = r
    rcases r with ⟨st, v, us, q⟩
    cases st <;> cases v <;> rfl
  · intro B alloc now ctx u len
    unfold nfs41_idmap_uid_to_name
    dsimp only
    generalize idmap_lookup_user B ctx.config.cache_ttl alloc now ctx.users (.byUid u) = r
    rcases r with ⟨st, v, us, q⟩
    cases st <;> cases v <;> first | rfl | (dsimp only; split <;> rfl)
  · intro B alloc now ctx p
    unfold nfs41_idmap_principal_to_ids
    dsimp only
    generalize idmap_lookup_user B ctx.config.cache_ttl alloc now ctx.users (.byPrincipal p) = r
    rcases r with ⟨st, v, us, q⟩
    cases st <;> cases v <;> rfl
  · intro Bg alloc now ctx n
    unfold nfs41_idmap_group_to_gid
    dsimp only
    generalize idmap_lookup_group Bg ctx.config.cache_ttl alloc now ctx.groups (.byGroupName n) = r
    rcases r with ⟨st, v, gs, q⟩
    cases st <;> cases v <;> rfl
  · intro Bg alloc now ctx g len
    unfold nfs41_idmap_gid_to_group
    dsimp only
    generalize idmap_lookup_group Bg ctx.config.cache_ttl alloc now ctx.groups (.byGid g) = r
    rcases r with ⟨st, v, gs, q⟩
    cases st <;> cases v <;> first | rfl | (dsimp only; split <;> rfl)

/-- C1: TTL semantics of the lookups (all six facade operations run through
`idmap_lookup_user` / `idmap_lookup_group`). With `cache_ttl = 0` a lookup
issues exactly one backend query and never changes the cache, regardless of
repetition. With any TTL, a lookup whose cache probe finds an entry with
`now - last_updated < ttl` returns that cached entry with zero backend
queries; a miss, or a probe that finds only a stale entry, issues exactly
one backend query. -/
theorem cache_ttl_semantics :
    (∀ (B : user_key → Except Status user_attrs) (alloc : Bool) (now : Nat)
        (cache : List idmap_user) (k : user_key),
      (∀ e ∈ cache, e.last_updated ≤ now) →
      (idmap_lookup_user B 0 alloc now cache k).users = cache ∧
      (idmap_lookup_user B 0 alloc now cache k).queries = 1) ∧
    (∀ (B : user_key → Except Status user_attrs) (ttl : Int) (alloc : Bool) (now : Nat)
        (cache : List idmap_user) (k : user_key) (e : idmap_user),
      cache_find (user_key_matches k) cache = some e →
      (now : Int) - (e.last_updated : Int) < ttl →
      idmap_lookup_user B ttl alloc now cache k = ⟨.ok, some e, cache, 0⟩) ∧
    (∀ (B : user_key → Except Status user_attrs) (ttl : Int) (alloc : Bool) (now : Nat)
        (cache : List idmap_user) (k : user_key),
      cache_find (user_key_matches k) cache = none →
      (idmap_lookup_user B ttl alloc now cache k).queries = 1) ∧
    (∀ (B : user_key → Except Status user_attrs) (ttl : Int) (alloc : Bool) (now : Nat)
        (cache : List idmap_user) (k : user_key) (e : idmap_user),
      cache_find (user_key_matches k) cache = some e →
      ¬((now : Int) - (e.last_updated : Int) < ttl) →
      (idmap_lookup_user B ttl alloc now cache k).queries = 1) ∧
    (∀ (B : group_key → Except Status group_attrs) (alloc : Bool) (now : Nat)
        (cache : List idmap_group) (k : group_key),
      (∀ e ∈ cache, e.last_updated ≤ now) →
      (idmap_lookup_group B 0 alloc now cache k).groups = cache ∧
      (idmap_lookup_group B 0 alloc now cache k).queries = 1) ∧
    (∀ (B : group_key → Except Status group_attrs) (ttl : Int) (alloc : Bool) (now : Nat)
        (cache : List idmap_group) (k : group_key) (e : idmap_group),
      cache_find (group_key_matches k) cache = some e →
      (now : Int) - (e.last_updated : Int) < ttl →
      idmap_lookup_group B ttl alloc now cache k = ⟨.ok, some e, cache, 0⟩) ∧
    (∀ (B : group_key → Except Status group_attrs) (ttl : Int) (alloc : Bool) (now : Nat)
        (cache : List idmap_group) (k : group_key),
      cache_find (group_key_matches k) cache = none →
      (idmap_lookup_group B ttl alloc now cache k).queries = 1) ∧
    (∀ (B : group_key → Except Status group_attrs) (ttl : Int) (alloc : Bool) (now : Nat)
        (cache : List idmap_group) (k : group_key) (e : idmap_group),
      cache_find (group_key_matches k) cache = some e →
      ¬((now : Int) - (e.last_updated : Int) < ttl) →
      (idmap_lookup_group B ttl alloc now cache k).queries = 1) := by
  refine ⟨?_, ?_, ?_, ?_, ?_, ?_, ?_, ?_⟩
  · intro B alloc now cache k hts
    have hcond : ∀ e, cache_find (user_key_matches k) cache = some e →
        ¬((now : Int) - (e.last_updated : Int) < 0) := by
      intro e hf hlt
      have hle : e.last_updated ≤ now := hts e (List.mem_of_find?_eq_some hf)
      have : (0 : Int) ≤ (now : Int) - (e.last_updated : Int) := by
        have := Int.ofNat_le.mpr hle
        omega
      omega
    rw [lookup_user_backend_eq hcond]
    cases B k with
    | error s => exact ⟨rfl, rfl⟩
    | ok a => exact ⟨rfl, rfl⟩
  · intro B ttl alloc now cache k e hf hfresh
    exact lookup_user_hit_fresh hf hfresh
  · intro B ttl alloc now cache k hmiss
    have hcond : ∀ e, cache_find (user_key_matches k) cache = some e →
        ¬((now : Int) - (e.last_updated : Int) < ttl) := by
      intro e hf
      rw [hmiss] at hf
      cases hf
    rw [lookup_user_backend_eq hcond]
    cases B k with
    | error s => rfl
    | ok a =>
      dsimp only
      split <;> rfl
  · intro B ttl alloc now cache k e hf hstale
    have hcond : ∀ e', cache_find (user_key_matches k) cache = some e' →
        ¬((now : Int) - (e'.last_updated : Int) < ttl) := by
      intro e' hf'
      rw [hf] at hf'
      have : e = e' := by injection hf'
      rw [← this]
      exact hstale
    rw [lookup_user_backend_eq hcond]
    cases B k with
    | error s => rfl
    | ok a =>
      dsimp only
      split <;> rfl
  · intro B alloc now cache k hts
    have hcond : ∀ e, cache_find (group_key_matches k) cache = some e →
        ¬((now : Int) - (e.last_updated : Int) < 0) := by
      intro e hf hlt
      have hle : e.last_updated ≤ now := hts e (List.mem_of_find?_eq_some hf)
      have : (0 : Int) ≤ (now : Int) - (e.last_updated : Int) := by
        have := Int.ofNat_le.mpr hle
        omega
      omega
    rw [lookup_group_backend_eq hcond]
    cases B k with
    | error s => exact ⟨rfl, rfl⟩
    | ok a => exact ⟨rfl, rfl⟩
  · intro B ttl alloc now cache k e hf hfresh
    exact lookup_group_hit_fresh hf hfresh
  · intro B ttl alloc now cache k hmiss
    have hcond : ∀ e, cache_find (group_key_matches k) cache = some e →
        ¬((now : Int) - (e.last_updated : Int) < ttl) := by
      intro e hf
      rw [hmiss] at hf
      cases hf
    rw [lookup_group_backend_eq hcond]
    cases B k with
    | error s => rfl
    | ok a =>
      dsimp only
      split <;> rfl
  · intro B ttl alloc now cache k e hf hstale
    have hcond : ∀ e', cache_find (group_key_matches k) cache = some e' →
        ¬((now : Int) - (e'.last_updated : Int) < ttl) := by
      intro e' hf'
      rw [hf] at hf'
      have : e = e' := by injection hf'
      rw [← this]
      exact hstale
    rw [lookup_group_backend_eq hcond]
    cases B k with
    | error s => rfl
    | ok a =>
      dsimp only
      split <;> rfl

/-- Witness for C1: a fresh by-name hit (age 5 < TTL 6000) is served from the
cache with zero backend queries. -/
theorem cache_ttl_semantics_witness :
    idmap_lookup_user demo_backend 6000 true 10
        [⟨"alice", "", 1000, 513, 5⟩] (.byName "alice") =
      ⟨.ok, some ⟨"alice", "", 1000, 513, 5⟩, [⟨"alice", "", 1000, 513, 5⟩], 0⟩ :=
  cache_ttl_semantics.2.1 demo_backend 6000 true 10 [⟨"alice", "", 1000, 513, 5⟩]
    (.byName "alice") ⟨"alice", "", 1000, 513, 5⟩ (by decide) (by decide)

/-- C9: caching is best-effort. On a miss whose backend query succeeds, the
lookup returns success with the freshly fetched value even when entry
allocation fails (`alloc_ok = false`, so the insert leaves the cache
unchanged); more generally the status and returned value of a lookup never
depend on whether cache-entry allocation succeeds. -/
theorem cache_best_effort :
    (∀ (B : user_key → Except Status user_attrs) (ttl : Int) (now : Nat)
        (cache : List idmap_user) (k : user_key) (a : user_attrs),
      ttl ≠ 0 →
      cache_find (user_key_matches k) cache = none →
      B k = .ok a →
      idmap_lookup_user B ttl false now cache k = ⟨.ok, some (stamp_user a now), cache, 1⟩) ∧
    (∀ (B : user_key → Except Status user_attrs) (ttl : Int) (alloc alloc' : Bool)
        (now : Nat) (cache : List idmap_user) (k : user_key),
      (idmap_lookup_user B ttl alloc now cache k).status =
        (idmap_lookup_user B ttl alloc' now cache k).status ∧
      (idmap_lookup_user B ttl alloc now cache k).value =
        (idmap_lookup_user B ttl alloc' now cache k).value) ∧
    (∀ (B : group_key → Except Status group_attrs) (ttl : Int) (now : Nat)
        (cache : List idmap_group) (k : group_key) (a : group_attrs),
      ttl ≠ 0 →
      cache_find (group_key_matches k) cache = none →
      B k = .ok a →
      idmap_lookup_group B ttl false now cache k = ⟨.ok, some (stamp_group a now), cache, 1⟩) ∧
    (∀ (B : group_key → Except Status group_attrs) (ttl : Int) (alloc alloc' : Bool)
        (now : Nat) (cache : List idmap_group) (k : group_key),
      (idmap_lookup_group B ttl alloc now cache k).status =
        (idmap_lookup_group B ttl alloc' now cache k).status ∧
      (idmap_lookup_group B ttl alloc now cache k).value =
        (idmap_lookup_group B ttl alloc' now cache k).value) := by
  refine ⟨?_, ?_, ?_, ?_⟩
  · intro B ttl now cache k a ht hmiss hB
    have hcond : ∀ e, cache_find (user_key_matches k) cache = some e →
        ¬((now : Int) - (e.last_updated : Int) < ttl) := by
      intro e hf
      rw [hmiss] at hf
      cases hf
    rw [lookup_user_backend_eq hcond]
    simp only [hB]
    rw [if_pos ht]
    have hany : cache.any (user_key_matches k) = false := by
      rw [List.any_eq_false]
      intro x hx
      simpa using List.find?_eq_none.mp hmiss x hx
    have hins : (cache_insert false (user_key_matches k) (stamp_user a now) cache).2 = cache := by
      unfold cache_insert
      rw [hany]
      rfl
    rw [hins]
  · intro B ttl alloc alloc' now cache k
    rcases hf : cache_find (user_key_matches k) cache with _ | e
    · have hcond : ∀ e, cache_find (user_key_matches k) cache = some e →
          ¬((now : Int) - (e.last_updated : Int) < ttl) := by
        intro e hf'
        rw [hf] at hf'
        cases hf'
      rw [lookup_user_backend_eq hcond, lookup_user_backend_eq hcond]
      cases B k with
      | error s => exact ⟨rfl, rfl⟩
      | ok a =>
        dsimp only
        constructor <;> (split <;> rfl)
    · by_cases hfresh : (now : Int) - (e.last_updated : Int) < ttl
      · rw [lookup_user_hit_fresh hf hfresh, lookup_user_hit_fresh hf hfresh]
        exact ⟨rfl, rfl⟩
      · have hcond : ∀ e', cache_find (user_key_matches k) cache = some e' →
            ¬((now : Int) - (e'.last_updated : Int) < ttl) := by
          intro e' hf'
          rw [hf] at hf'
          have : e = e' := by injection hf'
          rw [← this]
          exact hfresh
        rw [lookup_user_backend_eq hcond, lookup_user_backend_eq hcond]
        cases B k with
        | error s => exact ⟨rfl, rfl⟩
        | ok a =>
          dsimp only
          constructor <;> (split <;> rfl)
  · intro B ttl now cache k a ht hmiss hB
    have hcond : ∀ e, cache_find (group_key_matches k) cache = some e →
        ¬((now : Int) - (e.last_updated : Int) < ttl) := by
      intro e hf
      rw [hmiss] at hf
      cases hf
    rw [lookup_group_backend_eq hcond]
    simp only [hB]
    rw [if_pos ht]
    have hany : cache.any (group_key_matches k) = false := by
      rw [List.any_eq_false]
      intro x hx
      simpa using List.find?_eq_none.mp hmiss x hx
    have hins : (cache_insert false (group_key_matches k) (stamp_group a now) cache).2 = cache := by
      unfold cache_insert
      rw [hany]
      rfl
    rw [hins]
  · intro B ttl alloc alloc' now cache k
    rcases hf : cache_find (group_key_matches k) cache with _ | e
    · have hcond : ∀ e, cache_find (group_key_matches k) cache = some e →
          ¬((now : Int) - (e.last_updated : Int) < ttl) := by
        intro e hf'
        rw [hf] at hf'
        cases hf'
      rw [lookup_group_backend_eq hcond, lookup_group_backend_eq hcond]
      cases B k with
      | error s => exact ⟨rfl, rfl⟩
      | ok a =>
        dsimp only
        constructor <;> (split <;> rfl)
    · by_cases hfresh : (now : Int) - (e.last_updated : Int) < ttl
      · rw [lookup_group_hit_fresh hf hfresh, lookup_group_hit_fresh hf hfresh]
        exact ⟨rfl, rfl⟩
      · have hcond : ∀ e', cache_find (group_key_matches k) cache = some e' →
            ¬((now : Int) - (e'.last_updated : Int) < ttl) := by
          intro e' hf'
          rw [hf] at hf'
          have : e = e' := by injection hf'
          rw [← this]
          exact hfresh
        rw [lookup_group_backend_eq hcond, lookup_group_backend_eq hcond]
        cases B k with
        | error s => exact ⟨rfl, rfl⟩
        | ok a =>
          dsimp only
          constructor <;> (split <;> rfl)

/-- Witness for C9: with an empty cache and failing allocation, the lookup
still succeeds with the freshly fetched record and the cache stays empty. -/
theorem cache_best_effort_witness :
    idmap_lookup_user demo_backend 6000 false 7 [] (.byName "alice") =
      ⟨.ok, some ⟨"alice", "", 1000, 513, 7⟩, [], 1⟩ :=
  cache_best_effort.1 demo_backend 6000 7 [] (.byName "alice") ⟨"alice", "", 1000, 513⟩
    (by decide) (by decide) (by decide)

/-- C6: required versus optional attribute semantics. Any requested
attribute outside the optional mask whose value is absent from the directory
entry makes the fetch loop fail with the missing-required-attribute error;
a lookup whose backend query fails never changes the cache; an attribute in
the optional mask (the user lookup's principal) may be absent without error,
the caller receiving no value for it while all other requested values come
through. -/
theorem required_optional_attrs :
    (∀ (cfg : idmap_config) (entry : LdapEntry) (attributes optional : Nat)
        (idxs : List ldap_attr) (a : ldap_attr),
      a ∈ idxs →
      Nat.testBit attributes (attr_idx a) = true →
      Nat.testBit optional (attr_idx a) = false →
      entry (config_attr cfg a) = none →
      fetch_attrs cfg entry attributes optional idxs = .error .errNoSuchAttribute) ∧
    (∀ (B : user_key → Except Status user_attrs) (ttl : Int) (alloc : Bool) (now : Nat)
        (cache : List idmap_user) (k : user_key) (s : Status),
      B k = .error s →
      (idmap_lookup_user B ttl alloc now cache k).users = cache) ∧
    (∀ (cfg : idmap_config) (entry : LdapEntry) (vn vu vg : String),
      entry (config_attr cfg .ATTR_USER_NAME) = some vn →
      entry (config_attr cfg .ATTR_PRINCIPAL) = none →
      entry (config_attr cfg .ATTR_UID) = some vu →
      entry (config_attr cfg .ATTR_GID) = some vg →
      fetch_attrs cfg entry user_attr_mask user_opt_mask all_attrs =
        .ok [(.ATTR_USER_NAME, some vn), (.ATTR_GROUP_NAME, none), (.ATTR_PRINCIPAL, none),
          (.ATTR_UID, some vu), (.ATTR_GID, some vg)]) := by
  refine ⟨?_, ?_, ?_⟩
  · intro cfg entry attributes optional idxs
    induction idxs with
    | nil =>
      intro a ha _ _ _
      simp at ha
    | cons b rest ih =>
      intro a ha hreq hopt hmiss
      rcases List.mem_cons.mp ha with rfl | hmem
      · unfold fetch_attrs
        rw [hreq, if_pos rfl]
        simp only [hmiss]
        rw [hopt]
        rfl
      · have hr := ih a hmem hreq hopt hmiss
        unfold fetch_attrs
        by_cases hb : Nat.testBit attributes (attr_idx b) = true
        · rw [hb, if_pos rfl]
          cases hv : entry (config_attr cfg b) with
          | some v =>
            simp only [hv, hr]
          | none =>
            simp only [hv]
            by_cases ho : Nat.testBit optional (attr_idx b) = true
            · rw [ho, if_pos rfl]
              simp only [hr]
            · simp only [Bool.not_eq_true] at ho
              rw [ho]
              rfl
        · simp only [Bool.not_eq_true] at hb
          rw [hb]
          simp only [hr]
          rfl
  · intro B ttl alloc now cache k s hB
    by_cases hfr : ∃ e, cache_find (user_key_matches k) cache = some e ∧
        (now : Int) - (e.last_updated : Int) < ttl
    · obtain ⟨e, hf, hfresh⟩ := hfr
      rw [lookup_user_hit_fresh hf hfresh]
    · rw [lookup_user_backend_eq (fun e hf hfresh => hfr ⟨e, hf, hfresh⟩)]
      simp only [hB]
  · intro cfg entry vn vu vg h1 h2 h3 h4
    have t0 : Nat.testBit user_attr_mask (attr_idx .ATTR_USER_NAME) = true := by decide
    have t1 : Nat.testBit user_attr_mask (attr_idx .ATTR_GROUP_NAME) = false := by decide
    have t2 : Nat.testBit user_attr_mask (attr_idx .ATTR_PRINCIPAL) = true := by decide
    have t3 : Nat.testBit user_attr_mask (attr_idx .ATTR_UID) = true := by decide
    have t4 : Nat.testBit user_attr_mask (attr_idx .ATTR_GID) = true := by decide
    have o2 : Nat.testBit user_opt_mask (attr_idx .ATTR_PRINCIPAL) = true := by decide
    simp only [all_attrs, fetch_attrs, t0, t1, t2, t3, t4, o2, h1, h2, h3, h4,
      if_pos rfl]
    rfl

/-- Witness for C6: with the default schema and a directory entry carrying no
attributes at all, the user fetch (username required) fails with the
missing-required-attribute error. -/
theorem required_optional_attrs_witness :
    fetch_attrs (config_init none).2 (fun _ => none) user_attr_mask user_opt_mask all_attrs =
      .error .errNoSuchAttribute :=
  required_optional_attrs.1 (config_init none).2 (fun _ => none) user_attr_mask user_opt_mask
    all_attrs .ATTR_USER_NAME (by decide) (by decide) (by decide) rfl

/-- C8: round-trip law. For a valid username `n` (the backend's record found
by name `n` carries username `n`), an internally consistent backend (the
record found by name and the record found by the uid it returned carry the
same username and uid), a cache whose fresh entries agree with the backend,
and a caller buffer large enough for `n`, resolving name→uid and then
uid→name through the facade returns the original username. -/
theorem name_uid_roundtrip :
    ∀ (B : user_key → Except Status user_attrs) (alloc₁ alloc₂ : Bool) (now : Nat)
      (ctx : idmap_context) (n : String) (r : user_attrs) (len : Nat),
      B (.byName n) = .ok r →
      r.username = n →
      backend_consistent B →
      good_cache B ctx.config.cache_ttl now ctx.users →
      n.length < len →
      ∃ (uid : Nat) (ctx' : idmap_context) (q : Nat),
        nfs41_idmap_name_to_uid B alloc₁ now ctx n = (.ok, some uid, ctx', q) ∧
        ∃ (ctx'' : idmap_context) (q' : Nat),
          nfs41_idmap_uid_to_name B alloc₂ now ctx' uid len = (.ok, some n, ctx'', q') := by
  intro B alloc₁ alloc₂ now ctx n r len hB hr hcons hg hlen
  obtain ⟨hst, u, hval, hun, hgood_u⟩ :=
    lookup_user_byName_spec alloc₁ hB hr hg
  have h1 : nfs41_idmap_name_to_uid B alloc₁ now ctx n =
      (.ok, some u.uid,
        { ctx with users :=
            (idmap_lookup_user B ctx.config.cache_ttl alloc₁ now ctx.users (.byName n)).users },
        (idmap_lookup_user B ctx.config.cache_ttl alloc₁ now ctx.users (.byName n)).queries) := by
    unfold nfs41_idmap_name_to_uid
    dsimp only
    rw [hst, hval]
  have hg1 : good_cache B ctx.config.cache_ttl now
      (idmap_lookup_user B ctx.config.cache_ttl alloc₁ now ctx.users (.byName n)).users := by
    apply lookup_user_good_preserved hg
    intro a hBa
    rw [hB] at hBa
    have ha : r = a := by injection hBa
    subst ha
    refine ⟨r, ?_, ?_, ?_⟩ <;> simp [stamp_user, hr, hB]
  obtain ⟨r1, hBr1, hr1u, hr1uid⟩ := hgood_u
  obtain ⟨ru, hBru, hruu, _⟩ := hcons u.username r1 hBr1
  rw [hr1uid] at hBru
  have hrun : ru.username = n := by rw [hruu, hr1u, hun]
  obtain ⟨hst2, w, hval2, hwn⟩ :=
    lookup_user_byUid_spec alloc₂ hBru hrun hcons hg1
  refine ⟨u.uid, _, _, h1, ?_⟩
  have h2 : nfs41_idmap_uid_to_name B alloc₂ now
      { ctx with users :=
          (idmap_lookup_user B ctx.config.cache_ttl alloc₁ now ctx.users (.byName n)).users }
      u.uid len =
      (.ok, some n,
        { ctx with users :=
            (idmap_lookup_user B ctx.config.cache_ttl alloc₂ now
              (idmap_lookup_user B ctx.config.cache_ttl alloc₁ now ctx.users (.byName n)).users
              (.byUid u.uid)).users },
        (idmap_lookup_user B ctx.config.cache_ttl alloc₂ now
          (idmap_lookup_user B ctx.config.cache_ttl alloc₁ now ctx.users (.byName n)).users
          (.byUid u.uid)).queries) := by
    unfold nfs41_idmap_uid_to_name
    dsimp only
    rw [hst2, hval2]
    dsimp only
    rw [hwn]
    rw [if_neg (not_le.mpr hlen)]
  exact ⟨_, _, h2⟩

/-- Witness for C8: the one-user backend mapping alice ↔ uid 1000, an empty
cache, and a 32-byte output buffer round-trip the name alice. -/
theorem name_uid_roundtrip_witness :
    ∃ (uid : Nat) (ctx' : idmap_context) (q : Nat),
      nfs41_idmap_name_to_uid demo_backend true 0
          ⟨(config_init none).2, [], []⟩ "alice" = (.ok, some uid, ctx', q) ∧
      ∃ (ctx'' : idmap_context) (q' : Nat),
        nfs41_idmap_uid_to_name demo_backend true 0 ctx' uid 32 =
          (.ok, some "alice", ctx'', q') := by
  apply name_uid_roundtrip demo_backend true true 0 ⟨(config_init none).2, [], []⟩ "alice"
    ⟨"alice", "", 1000, 513⟩ 32
  · decide
  · decide
  · intro m rm hm
    unfold demo_backend at hm
    dsimp only at hm
    by_cases he : m = "alice"
    · rw [if_pos he] at hm
      have : (⟨"alice", "", 1000, 513⟩ : user_attrs) = rm := by injection hm
      refine ⟨⟨"alice", "", 1000, 513⟩, ?_, ?_, ?_⟩ <;> rw [← this] <;> decide
    · rw [if_neg he] at hm
      cases hm
  · intro e he
    cases he
  · decide

end Idmap
